import Mathlib

/-!
Verification of the core subsystems of the eyes-on-claude-code monitor:
the session-event state machine and event-queue drainer
(app/src-tauri/src/events.rs, app/src-tauri/src/state.rs)
and the diff-viewer process registry (src-tauri/src/difit.rs),
shallowly embedded in Lean.
-/

namespace EoCC

/-- String-keyed finite map, modelling Rust HashMap with String keys. -/
abbrev SMap (α : Type) : Type := String → Option α

def SMap.insert {α : Type} (m : SMap α) (k : String) (v : α) : SMap α :=
  fun q => if q = k then some v else m q

def SMap.remove {α : Type} (m : SMap α) (k : String) : SMap α :=
  fun q => if q = k then none else m q

def SMap.empty {α : Type} : SMap α := fun _ => none

/-- EventType from state.rs: the event tag of one log line. -/
inductive EventType where
  | SessionStart
  | SessionEnd
  | Notification
  | Stop
  | PostToolUse
  | UserPromptSubmit
  | Unknown
deriving DecidableEq

/-- NotificationType from state.rs; Other is the serde default. -/
inductive NotificationType where
  | PermissionPrompt
  | IdlePrompt
  | Other
deriving DecidableEq

/-- EventInfo from state.rs: one parsed event record. -/
structure EventInfo where
  timestamp : String
  event_type : EventType
  matcher : String
  project_name : String
  project_dir : String
  session_id : String
  message : String
  notification_type : NotificationType
  tool_name : String
deriving DecidableEq

/-- SessionStatus from state.rs. -/
inductive SessionStatus where
  | Active
  | WaitingPermission
  | WaitingInput
  | Completed
deriving DecidableEq

/-- SessionInfo from state.rs: the tracked state of one session. -/
structure SessionInfo where
  project_name : String
  project_dir : String
  status : SessionStatus
  last_event : String
  waiting_for : String
deriving DecidableEq

/-- AppState from state.rs: sessions map, bounded recent-event list
(VecDeque with head at the front of the list), legacy file offset. -/
structure AppState where
  sessions : SMap SessionInfo
  recent_events : List EventInfo
  last_file_pos : Nat

/-- AppState::default(): empty sessions, empty recent events, offset 0. -/
def AppState.default : AppState :=
  { sessions := SMap.empty, recent_events := [], last_file_pos := 0 }

/-- Key derivation in process_event (events.rs): project_dir when
non-empty, otherwise project_name. -/
def eventKey (e : EventInfo) : String :=
  if e.project_dir = "" then e.project_name else e.project_dir

/-- AppState::upsert_session (state.rs): entry(key).and_modify(...).or_insert_with(...).
An existing entry keeps its project_name and project_dir; a fresh entry
copies them from the incoming event. -/
def AppState.upsert_session (st : AppState) (key : String) (e : EventInfo)
    (status : SessionStatus) (waiting_for : String) : AppState :=
  match st.sessions key with
  | some s =>
      let s1 : SessionInfo :=
        { s with status := status, last_event := e.timestamp, waiting_for := waiting_for }
      { st with sessions := SMap.insert st.sessions key s1 }
  | none =>
      let s1 : SessionInfo :=
        { project_name := e.project_name, project_dir := e.project_dir,
          status := status, last_event := e.timestamp, waiting_for := waiting_for }
      { st with sessions := SMap.insert st.sessions key s1 }

/-- Recent-events update at the top of process_event (events.rs):
push_back the new event, then pop_front once the length exceeds 50. -/
def pushRecent (l : List EventInfo) (e : EventInfo) : List EventInfo :=
  if (l ++ [e]).length > 50 then (l ++ [e]).tail else l ++ [e]

/-- process_event (events.rs): append to recent events, derive the key,
then dispatch on the event kind exactly as the Rust match does. -/
def process_event (st : AppState) (e : EventInfo) : AppState :=
  let st1 : AppState := { st with recent_events := pushRecent st.recent_events e }
  let key := eventKey e
  match e.event_type with
  | EventType.SessionStart =>
      let s1 : SessionInfo :=
        { project_name := e.project_name, project_dir := e.project_dir,
          status := SessionStatus.Active, last_event := e.timestamp, waiting_for := "" }
      { st1 with sessions := SMap.insert st1.sessions key s1 }
  | EventType.SessionEnd =>
      { st1 with sessions := SMap.remove st1.sessions key }
  | EventType.Notification =>
      let new_status :=
        match e.notification_type with
        | NotificationType.PermissionPrompt => SessionStatus.WaitingPermission
        | NotificationType.IdlePrompt => SessionStatus.WaitingInput
        | NotificationType.Other => SessionStatus.Active
      let waiting_info :=
        if e.message ≠ "" then e.message
        else if e.tool_name ≠ "" then e.tool_name
        else ""
      st1.upsert_session key e new_status waiting_info
  | EventType.Stop =>
      st1.upsert_session key e SessionStatus.Completed ""
  | EventType.PostToolUse =>
      st1.upsert_session key e SessionStatus.Active ""
  | EventType.UserPromptSubmit =>
      st1.upsert_session key e SessionStatus.Active ""
  | EventType.Unknown =>
      match st1.sessions key with
      | some s =>
          let s1 : SessionInfo := { s with last_event := e.timestamp }
          { st1 with sessions := SMap.insert st1.sessions key s1 }
      | none => st1

/-- Line-processing loop of drain_events_queue (events.rs): for each line
of the rotated file, skip it when empty, otherwise parse it; a parsed
record is applied to the state and collected, a parse failure is dropped
and processing continues with the remaining lines. The JSON parser is an
abstract parameter, as serde_json is external to this crate. -/
def drainLines (parse : String → Option EventInfo) :
    List String → AppState → AppState × List EventInfo
  | [], st => (st, [])
  | line :: rest, st =>
      if line = "" then
        drainLines parse rest st
      else
        match parse line with
        | some e =>
            let r := drainLines parse rest (process_event st e)
            (r.1, e :: r.2)
        | none => drainLines parse rest st

/-- Filesystem view seen by one call of drain_events_queue (events.rs):
whether the events-file path resolves, whether the file exists, whether
its metadata can be read and the size it reports, whether the atomic
rename and the open of the rotated file succeed, and the lines the
rotated file holds. -/
structure FsView where
  pathOk : Bool
  fileExists : Bool
  metadataOk : Bool
  fileSize : Nat
  renameOk : Bool
  openOk : Bool
  lines : List String

/-- drain_events_queue (events.rs): early-return with no change when the
path cannot be resolved, the file is absent, its metadata is unreadable,
it is empty, or the rename fails; otherwise process the rotated file line
by line (an open failure processes nothing) and reset the legacy offset. -/
def drain_events_queue (parse : String → Option EventInfo) (fs : FsView)
    (st : AppState) : AppState × List EventInfo :=
  if fs.pathOk = false then (st, [])
  else if fs.fileExists = false then (st, [])
  else if fs.metadataOk = false then (st, [])
  else if fs.fileSize = 0 then (st, [])
  else if fs.renameOk = false then (st, [])
  else if fs.openOk = false then ({ st with last_file_pos := 0 }, [])
  else
    let r := drainLines parse fs.lines st
    ({ r.1 with last_file_pos := 0 }, r.2)

/-- DEFAULT_BASE_BRANCH constant from difit.rs. -/
def DEFAULT_BASE_BRANCH : String := "main"

/-- DEFAULT_DIFIT_PORT constant from difit.rs (u16 value 4966). -/
def DEFAULT_DIFIT_PORT : Nat := 4966

/-- DiffType from difit.rs. -/
inductive DiffType where
  | Unstaged
  | Staged
  | LatestCommit
  | Branch
deriving DecidableEq

/-- Rust str::starts_with with the char pattern: true exactly when the
first character of the string is the given char. -/
def startsWithChar (s : String) (c : Char) : Bool :=
  s.data.head? == some c

/-- DiffType::git_diff_args (difit.rs): the git argument list per diff
type; for Branch diffs the base defaults to DEFAULT_BASE_BRANCH and a
base starting with a dash is rejected as an error. -/
def git_diff_args (dt : DiffType) (branch : Option String) :
    Except String (List String) :=
  match dt with
  | DiffType.Unstaged => Except.ok ["diff"]
  | DiffType.Staged => Except.ok ["diff", "--cached"]
  | DiffType.LatestCommit => Except.ok ["diff", "HEAD~1", "HEAD"]
  | DiffType.Branch =>
      let base := branch.getD DEFAULT_BASE_BRANCH
      if startsWithChar base '-' then
        Except.error ("Invalid branch name: " ++ base)
      else
        Except.ok ["diff", base, "HEAD"]

/-- HashCompareResult from difit.rs. -/
inductive HashCompareResult where
  | Unchanged
  | Changed
  | NewEntry
deriving DecidableEq

/-- RegistryInner from difit.rs: the data behind the registry mutex.
Child process handles are abstract identifiers (Nat); content hashes are
u64 values modelled as Nat, only compared for equality. -/
structure RegistryInner where
  processes : SMap Nat
  diff_hashes : SMap Nat
  next_port : Nat

/-- DifitProcessRegistry::new (difit.rs): empty maps, port counter at
DEFAULT_DIFIT_PORT. -/
def RegistryInner.new : RegistryInner :=
  { processes := SMap.empty, diff_hashes := SMap.empty,
    next_port := DEFAULT_DIFIT_PORT }

/-- DifitProcessRegistry::register (difit.rs): record a spawned child
under the window label, replacing any previous mapping. -/
def register (inner : RegistryInner) (window_label : String) (p : Nat) :
    RegistryInner :=
  { inner with processes := SMap.insert inner.processes window_label p }

/-- DifitProcessRegistry::get_next_port (difit.rs), lock-acquired branch:
return the current counter, then advance it by one in wrapping u16
arithmetic and reset it to DEFAULT_DIFIT_PORT whenever the advance left
it below the base. -/
def get_next_port (inner : RegistryInner) : Nat × RegistryInner :=
  let current := inner.next_port
  let np1 := (inner.next_port + 1) % 65536
  let np2 := if np1 < DEFAULT_DIFIT_PORT then DEFAULT_DIFIT_PORT else np1
  (current, { inner with next_port := np2 })

/-- Counter evolution under get_next_port alone (the only registry
operation that writes next_port). -/
def portStep (inner : RegistryInner) : RegistryInner := (get_next_port inner).2

/-- Registry state after k successive get_next_port calls from a fresh
registry. -/
def portAfter (k : Nat) : RegistryInner :=
  Nat.iterate portStep k RegistryInner.new

/-- DifitProcessRegistry::compare_and_update_hash (difit.rs),
lock-acquired branch. The third component records the process handles
killed by this call (the source kills and reaps the removed child). -/
def compare_and_update_hash (inner : RegistryInner) (window_label : String)
    (new_hash : Nat) : HashCompareResult × RegistryInner × List Nat :=
  match inner.diff_hashes window_label with
  | some old_hash =>
      if old_hash = new_hash then
        (HashCompareResult.Unchanged, inner, [])
      else
        let rk : SMap Nat × List Nat :=
          match inner.processes window_label with
          | some p => (SMap.remove inner.processes window_label, [p])
          | none => (inner.processes, [])
        (HashCompareResult.Changed,
         { inner with processes := rk.1,
                      diff_hashes := SMap.insert inner.diff_hashes window_label new_hash },
         rk.2)
  | none =>
      (HashCompareResult.NewEntry,
       { inner with diff_hashes := SMap.insert inner.diff_hashes window_label new_hash },
       [])

/-- DifitProcessRegistry::kill (difit.rs), lock-acquired branch: remove
and terminate the process for the label, clearing its hash; the third
component records the killed handles. -/
def registryKill (inner : RegistryInner) (window_label : String) :
    RegistryInner × List Nat :=
  let rk : SMap Nat × List Nat :=
    match inner.processes window_label with
    | some p => (SMap.remove inner.processes window_label, [p])
    | none => (inner.processes, [])
  ({ inner with processes := rk.1,
                diff_hashes := SMap.remove inner.diff_hashes window_label },
   rk.2)

/-- Concrete SessionStart record used in closed evaluations. -/
def evStart : EventInfo :=
  { timestamp := "t1", event_type := EventType.SessionStart, matcher := "",
    project_name := "proj", project_dir := "/a", session_id := "s1",
    message := "", notification_type := NotificationType.Other, tool_name := "" }

/-- Concrete SessionEnd record used in closed evaluations. -/
def evEnd : EventInfo :=
  { timestamp := "t2", event_type := EventType.SessionEnd, matcher := "",
    project_name := "proj", project_dir := "/a", session_id := "s1",
    message := "", notification_type := NotificationType.Other, tool_name := "" }

/-- Concrete Notification record with kind Other and both payload fields
non-empty, used in closed evaluations. -/
def evNotifOther : EventInfo :=
  { timestamp := "t3", event_type := EventType.Notification, matcher := "",
    project_name := "proj", project_dir := "/a", session_id := "s1",
    message := "run rm?", notification_type := NotificationType.Other,
    tool_name := "Bash" }

/-- Concrete Notification record with kind PermissionPrompt and both
payload fields non-empty, used in closed evaluations. -/
def evNotifPerm : EventInfo :=
  { timestamp := "t4", event_type := EventType.Notification, matcher := "",
    project_name := "proj", project_dir := "/a", session_id := "s1",
    message := "run rm?", notification_type := NotificationType.PermissionPrompt,
    tool_name := "Bash" }

/-- Concrete Stop record used in closed evaluations. -/
def evStop : EventInfo :=
  { timestamp := "t5", event_type := EventType.Stop, matcher := "",
    project_name := "proj", project_dir := "/a", session_id := "s1",
    message := "", notification_type := NotificationType.Other, tool_name := "" }

/-- Parser used in closed evaluations: recognises the two demo lines. -/
def parseDemo : String → Option EventInfo :=
  fun l => if l = "L1" then some evStart else if l = "L2" then some evNotifPerm else none

/-- Filesystem view used in closed evaluations of the drain early
returns: file absent, size zero, rename failing. -/
def fsAbsent : FsView :=
  { pathOk := true, fileExists := false, metadataOk := true, fileSize := 0,
    renameOk := false, openOk := true, lines := [] }

/-- Filesystem view used in closed evaluations of a successful drain:
two well-formed lines around a blank line and an unparsable line. -/
def fsTwoLines : FsView :=
  { pathOk := true, fileExists := true, metadataOk := true, fileSize := 20,
    renameOk := true, openOk := true, lines := ["L1", "", "junk", "L2"] }

theorem SMap.insert_self {α : Type} (m : SMap α) (k : String) (v : α) :
    SMap.insert m k v k = some v := by
  simp [SMap.insert]

theorem SMap.insert_other {α : Type} (m : SMap α) (k : String) (v : α)
    (q : String) (hq : q ≠ k) : SMap.insert m k v q = m q := by
  simp [SMap.insert, hq]

theorem SMap.remove_self {α : Type} (m : SMap α) (k : String) :
    SMap.remove m k k = none := by
  simp [SMap.remove]

theorem SMap.remove_other {α : Type} (m : SMap α) (k : String)
    (q : String) (hq : q ≠ k) : SMap.remove m k q = m q := by
  simp [SMap.remove, hq]

theorem AppState.upsert_session_frame (st : AppState) (key : String)
    (e : EventInfo) (status : SessionStatus) (w : String) (q : String)
    (hq : q ≠ key) :
    (st.upsert_session key e status w).sessions q = st.sessions q := by
  unfold AppState.upsert_session
  split <;> simp [SMap.insert, hq]

theorem AppState.upsert_session_self (st : AppState) (key : String)
    (e : EventInfo) (status : SessionStatus) (w : String) :
    ∃ s : SessionInfo, (st.upsert_session key e status w).sessions key = some s ∧
      s.status = status ∧ s.last_event = e.timestamp ∧ s.waiting_for = w := by
  unfold AppState.upsert_session
  split
  · exact ⟨_, SMap.insert_self _ _ _, rfl, rfl, rfl⟩
  · exact ⟨_, SMap.insert_self _ _ _, rfl, rfl, rfl⟩

theorem AppState.upsert_session_recent (st : AppState) (key : String)
    (e : EventInfo) (status : SessionStatus) (w : String) :
    (st.upsert_session key e status w).recent_events = st.recent_events := by
  unfold AppState.upsert_session
  split <;> rfl

theorem AppState.upsert_session_pos (st : AppState) (key : String)
    (e : EventInfo) (status : SessionStatus) (w : String) :
    (st.upsert_session key e status w).last_file_pos = st.last_file_pos := by
  unfold AppState.upsert_session
  split <;> rfl

theorem process_event_notification (st : AppState) (e : EventInfo)
    (h : e.event_type = EventType.Notification) :
    process_event st e =
      AppState.upsert_session { st with recent_events := pushRecent st.recent_events e }
        (eventKey e) e
        (match e.notification_type with
         | NotificationType.PermissionPrompt => SessionStatus.WaitingPermission
         | NotificationType.IdlePrompt => SessionStatus.WaitingInput
         | NotificationType.Other => SessionStatus.Active)
        (if e.message ≠ "" then e.message
         else if e.tool_name ≠ "" then e.tool_name else "") := by
  simp [process_event, h]

/-- C1: after process_event, a SessionEnd record leaves the derived key
absent from the session store whatever was there before, and a
SessionStart record maps the derived key to a fresh SessionInfo with
status Active and empty waiting_for, overwriting any existing entry. -/
theorem c1_session_start_end_closure (st : AppState) (e : EventInfo) :
    (e.event_type = EventType.SessionEnd →
        (process_event st e).sessions (eventKey e) = none) ∧
    (e.event_type = EventType.SessionStart →
        (process_event st e).sessions (eventKey e) =
          some { project_name := e.project_name, project_dir := e.project_dir,
                 status := SessionStatus.Active, last_event := e.timestamp,
                 waiting_for := "" }) := by
  constructor <;> intro h <;> simp [process_event, h, SMap.insert, SMap.remove]

theorem c1_witness :
    (evEnd.event_type = EventType.SessionEnd ∧
       (process_event AppState.default evEnd).sessions (eventKey evEnd) = none) ∧
    (evStart.event_type = EventType.SessionStart ∧
       (process_event AppState.default evStart).sessions (eventKey evStart) =
         some { project_name := "proj", project_dir := "/a",
                status := SessionStatus.Active, last_event := "t1",
                waiting_for := "" }) :=
  ⟨⟨rfl, (c1_session_start_end_closure AppState.default evEnd).1 rfl⟩,
   ⟨rfl, (c1_session_start_end_closure AppState.default evStart).2 rfl⟩⟩

/-- C5: a Notification record sets the touched session's waiting_for to
message when message is non-empty (message wins over tool_name), to
tool_name when message is empty and tool_name is not, and to the empty
string when both are empty. -/
theorem c5_notification_waiting_reason_precedence (st : AppState)
    (e : EventInfo) (h : e.event_type = EventType.Notification) :
    ∃ s : SessionInfo, (process_event st e).sessions (eventKey e) = some s ∧
      (e.message ≠ "" → s.waiting_for = e.message) ∧
      (e.message = "" → e.tool_name ≠ "" → s.waiting_for = e.tool_name) ∧
      (e.message = "" → e.tool_name = "" → s.waiting_for = "") := by
  rw [process_event_notification st e h]
  obtain ⟨s, hs, _, _, hw⟩ := AppState.upsert_session_self
    { st with recent_events := pushRecent st.recent_events e } (eventKey e) e _ _
  refine ⟨s, hs, ?_, ?_, ?_⟩
  · intro hm
    rw [hw, if_pos hm]
  · intro hm ht
    rw [hw, if_neg (by simpa using hm), if_pos ht]
  · intro hm ht
    rw [hw, if_neg (by simpa using hm), if_neg (by simpa using ht)]

theorem c5_witness :
    evNotifOther.event_type = EventType.Notification ∧
    ∃ s : SessionInfo,
      (process_event AppState.default evNotifOther).sessions
          (eventKey evNotifOther) = some s ∧
      (evNotifOther.message ≠ "" → s.waiting_for = evNotifOther.message) :=
  ⟨rfl,
   match c5_notification_waiting_reason_precedence AppState.default evNotifOther rfl with
   | ⟨s, hs, hm, _, _⟩ => ⟨s, hs, hm⟩⟩

/-- C10: process_event touches at most the session-store entry at the
derived key; every other key maps to the same SessionInfo as before, and
the legacy file offset is untouched. -/
theorem c10_process_event_frame (st : AppState) (e : EventInfo) (k : String)
    (hk : k ≠ eventKey e) :
    (process_event st e).sessions k = st.sessions k ∧
    (process_event st e).last_file_pos = st.last_file_pos := by
  cases he : e.event_type <;>
    simp [process_event, he, AppState.upsert_session, SMap.insert, SMap.remove, hk] <;>
    split <;> simp [SMap.insert, hk]

theorem process_event_sessions_other (st : AppState) (e : EventInfo)
    (k : String) (hk : k ≠ eventKey e) :
    (process_event st e).sessions k = st.sessions k := by
  cases he : e.event_type <;>
    simp [process_event, he, AppState.upsert_session, SMap.insert, SMap.remove, hk] <;>
    split <;> simp [SMap.insert, hk]

theorem process_event_completed_inv (st : AppState) (e : EventInfo)
    (h : ∀ k s, st.sessions k = some s →
      s.status = SessionStatus.Completed → s.waiting_for = "")
    (k : String) (s : SessionInfo)
    (hs : (process_event st e).sessions k = some s) :
    s.status = SessionStatus.Completed → s.waiting_for = "" := by
  by_cases hk : k = eventKey e
  · subst hk
    cases he : e.event_type with
    | SessionStart =>
      simp [process_event, he, SMap.insert] at hs
      intro hc
      rw [← hs] at hc
      simp at hc
    | SessionEnd =>
      simp [process_event, he, SMap.remove] at hs
    | Notification =>
      rw [process_event_notification st e he] at hs
      obtain ⟨s', hs', hstat, _, hw⟩ := AppState.upsert_session_self
        { st with recent_events := pushRecent st.recent_events e } (eventKey e) e _ _
      rw [hs'] at hs
      injection hs with hs
      subst hs
      intro hc
      rw [hstat] at hc
      cases hnt : e.notification_type <;> rw [hnt] at hc <;> simp at hc
    | Stop =>
      simp only [process_event, he] at hs
      obtain ⟨s', hs', _, _, hw⟩ := AppState.upsert_session_self
        { st with recent_events := pushRecent st.recent_events e } (eventKey e) e
        SessionStatus.Completed ""
      rw [hs'] at hs
      injection hs with hs
      subst hs
      intro _
      exact hw
    | PostToolUse =>
      simp only [process_event, he] at hs
      obtain ⟨s', hs', hstat, _, _⟩ := AppState.upsert_session_self
        { st with recent_events := pushRecent st.recent_events e } (eventKey e) e
        SessionStatus.Active ""
      rw [hs'] at hs
      injection hs with hs
      subst hs
      intro hc
      rw [hstat] at hc
      simp at hc
    | UserPromptSubmit =>
      simp only [process_event, he] at hs
      obtain ⟨s', hs', hstat, _, _⟩ := AppState.upsert_session_self
        { st with recent_events := pushRecent st.recent_events e } (eventKey e) e
        SessionStatus.Active ""
      rw [hs'] at hs
      injection hs with hs
      subst hs
      intro hc
      rw [hstat] at hc
      simp at hc
    | Unknown =>
      simp only [process_event, he] at hs
      cases hold : st.sessions (eventKey e) with
      | some s0 =>
          rw [show ({ st with recent_events := pushRecent st.recent_events e } :
                AppState).sessions = st.sessions from rfl, hold] at hs
          simp [SMap.insert] at hs
          intro hc
          rw [← hs] at hc ⊢
          exact h (eventKey e) s0 hold hc
      | none =>
          rw [show ({ st with recent_events := pushRecent st.recent_events e } :
                AppState).sessions = st.sessions from rfl, hold] at hs
          exact h (eventKey e) s hs
  · rw [process_event_sessions_other st e k hk] at hs
    exact h k s hs

theorem foldl_completed_inv (evs : List EventInfo) (st : AppState)
    (h : ∀ k s, st.sessions k = some s →
      s.status = SessionStatus.Completed → s.waiting_for = "") :
    ∀ k s, (evs.foldl process_event st).sessions k = some s →
      s.status = SessionStatus.Completed → s.waiting_for = "" := by
  induction evs generalizing st with
  | nil => exact h
  | cons e rest ih =>
      exact ih (process_event st e) (process_event_completed_inv st e h)

theorem process_event_recent (st : AppState) (e : EventInfo) :
    (process_event st e).recent_events = pushRecent st.recent_events e := by
  cases he : e.event_type <;>
    simp [process_event, he, AppState.upsert_session_recent] <;>
    split <;> rfl

theorem pushRecent_length_le (l : List EventInfo) (e : EventInfo)
    (h : l.length ≤ 50) : (pushRecent l e).length ≤ 50 := by
  unfold pushRecent
  split <;>
    simp only [List.length_tail, List.length_append, List.length_cons,
      List.length_nil, gt_iff_lt, not_lt] at * <;>
    omega

theorem recent_foldl (evs : List EventInfo) (st : AppState)
    (h : st.recent_events.length ≤ 50) :
    (evs.foldl process_event st).recent_events =
      (st.recent_events ++ evs).drop ((st.recent_events ++ evs).length - 50) := by
  induction evs generalizing st with
  | nil =>
      have h0 : st.recent_events.length - 50 = 0 := by omega
      simp [h0]
  | cons e rest ih =>
      have hstep : (List.foldl process_event st (e :: rest)).recent_events =
          (List.foldl process_event (process_event st e) rest).recent_events := rfl
      rw [hstep, ih (process_event st e)
        (by rw [process_event_recent]; exact pushRecent_length_le _ _ h)]
      rw [process_event_recent]
      unfold pushRecent
      split
      case isTrue hgt =>
        have hlen : st.recent_events.length = 50 := by
          simp at hgt
          omega
        have h1 : ((st.recent_events ++ [e]).tail ++ rest).length - 50 = rest.length := by
          simp only [List.length_append, List.length_tail, List.length_cons,
            List.length_nil, hlen]
          omega
        have h2 : (st.recent_events ++ e :: rest).length - 50 = 1 + rest.length := by
          simp only [List.length_append, List.length_cons, hlen]
          omega
        rw [h1, h2, ← List.drop_one, ← List.drop_append_of_le_length (by simp),
          List.drop_drop, List.append_assoc, List.singleton_append]
      case isFalse hle =>
        rw [List.append_assoc, List.singleton_append]

/-- C4 counterexample: the claimed invariant fails on a store reachable
from the empty store. A single Notification record with kind Other and a
non-empty message yields a session whose status is Active — neither
WaitingPermission nor WaitingInput — with a non-empty waiting_for. -/
theorem c4_waiting_for_counterexample :
    ([evNotifOther].foldl process_event AppState.default).sessions "/a" =
      some { project_name := "proj", project_dir := "/a",
             status := SessionStatus.Active, last_event := "t3",
             waiting_for := "run rm?" } ∧
    SessionStatus.Active ≠ SessionStatus.WaitingPermission ∧
    SessionStatus.Active ≠ SessionStatus.WaitingInput ∧
    "run rm?" ≠ "" :=
  ⟨by decide, by decide, by decide, by decide⟩

/-- C4 amended: in every session store reachable from the empty store by
process_event, every SessionInfo has waiting_for = "" unless its status
is WaitingPermission, WaitingInput, or Active (a Notification of kind
Other upserts status Active while still recording the waiting reason);
equivalently, a Completed session always has empty waiting_for. -/
theorem c4_waiting_for_amended (evs : List EventInfo) (k : String)
    (s : SessionInfo)
    (hs : (evs.foldl process_event AppState.default).sessions k = some s)
    (h1 : s.status ≠ SessionStatus.WaitingPermission)
    (h2 : s.status ≠ SessionStatus.WaitingInput)
    (h3 : s.status ≠ SessionStatus.Active) :
    s.waiting_for = "" := by
  have hc : s.status = SessionStatus.Completed := by
    cases hstat : s.status <;> simp_all
  refine foldl_completed_inv evs AppState.default ?_ k s hs hc
  intro k' s' h'
  simp [AppState.default, SMap.empty] at h'

theorem c4_waiting_for_amended_witness :
    (([evStop].foldl process_event AppState.default).sessions "/a" =
        some { project_name := "proj", project_dir := "/a",
               status := SessionStatus.Completed, last_event := "t5",
               waiting_for := "" } ∧
      SessionStatus.Completed ≠ SessionStatus.WaitingPermission ∧
      SessionStatus.Completed ≠ SessionStatus.WaitingInput ∧
      SessionStatus.Completed ≠ SessionStatus.Active) ∧
    ({ project_name := "proj", project_dir := "/a",
       status := SessionStatus.Completed, last_event := "t5",
       waiting_for := "" } : SessionInfo).waiting_for = "" :=
  ⟨⟨by decide, by decide, by decide, by decide⟩,
   c4_waiting_for_amended [evStop] "/a" _ (by decide) (by decide) (by decide)
     (by decide)⟩

/-- C6: when the recent-event list holds at most 50 records,
process_event appends the new record at the tail and, once the length
exceeds 50, drops exactly the head; hence feeding any 60 records into
the empty state leaves exactly the last 50 records, in arrival order. -/
theorem c6_bounded_history (st : AppState) (e : EventInfo)
    (evs : List EventInfo) (hle : st.recent_events.length ≤ 50)
    (h60 : evs.length = 60) :
    ((st.recent_events ++ [e]).length ≤ 50 →
        (process_event st e).recent_events = st.recent_events ++ [e]) ∧
    ((st.recent_events ++ [e]).length > 50 →
        (process_event st e).recent_events = (st.recent_events ++ [e]).tail) ∧
    (evs.foldl process_event AppState.default).recent_events = evs.drop 10 ∧
    (evs.foldl process_event AppState.default).recent_events.length = 50 := by
  have hmain : (evs.foldl process_event AppState.default).recent_events =
      evs.drop 10 := by
    rw [recent_foldl evs AppState.default (by simp [AppState.default])]
    have : (AppState.default.recent_events ++ evs) = evs := by
      simp [AppState.default]
    rw [this]
    congr 1
    omega
  refine ⟨?_, ?_, hmain, ?_⟩
  · intro hl
    rw [process_event_recent]
    unfold pushRecent
    rw [if_neg (by omega)]
  · intro hl
    rw [process_event_recent]
    unfold pushRecent
    rw [if_pos hl]
  · rw [hmain]
    simp [h60]

theorem c6_witness :
    (AppState.default.recent_events.length ≤ 50 ∧
       (List.replicate 60 evStart).length = 60) ∧
    ((List.replicate 60 evStart).foldl process_event AppState.default).recent_events =
      (List.replicate 60 evStart).drop 10 :=
  ⟨⟨by decide, by simp⟩,
   (c6_bounded_history AppState.default evStart (List.replicate 60 evStart)
      (by decide) (by simp)).2.2.1⟩

theorem drainLines_spec (parse : String → Option EventInfo)
    (lines : List String) (st : AppState) :
    drainLines parse lines st =
      (((lines.filter fun l => !(l == "")).filterMap parse).foldl process_event st,
       (lines.filter fun l => !(l == "")).filterMap parse) := by
  induction lines generalizing st with
  | nil => rfl
  | cons line rest ih =>
      by_cases h : line = ""
      · subst h
        simp [drainLines, ih]
      · cases hp : parse line with
        | some e => simp [drainLines, h, hp, ih]
        | none => simp [drainLines, h, hp, ih]

/-- C3: on a successful drain cycle, every non-blank line of the rotated
file that parses is applied to the session store exactly once and in
file order; blank lines are skipped and unparsable lines are dropped
without stopping the remaining lines from being processed. The returned
event list is exactly the parsed records in file order, and the
resulting store is the fold of process_event over them. -/
theorem c3_drain_applies_lines_in_order (parse : String → Option EventInfo)
    (fs : FsView) (st : AppState) (h1 : fs.pathOk = true)
    (h2 : fs.fileExists = true) (h3 : fs.metadataOk = true)
    (h4 : fs.fileSize ≠ 0) (h5 : fs.renameOk = true) (h6 : fs.openOk = true) :
    (drain_events_queue parse fs st).2 =
      ((fs.lines.filter fun l => !(l == "")).filterMap parse) ∧
    (drain_events_queue parse fs st).1.sessions =
      (((fs.lines.filter fun l => !(l == "")).filterMap parse).foldl
        process_event st).sessions ∧
    (drain_events_queue parse fs st).1.recent_events =
      (((fs.lines.filter fun l => !(l == "")).filterMap parse).foldl
        process_event st).recent_events := by
  simp [drain_events_queue, h1, h2, h3, h4, h5, h6, drainLines_spec]

theorem c3_witness :
    (fsTwoLines.pathOk = true ∧ fsTwoLines.fileExists = true ∧
       fsTwoLines.metadataOk = true ∧ fsTwoLines.fileSize ≠ 0 ∧
       fsTwoLines.renameOk = true ∧ fsTwoLines.openOk = true) ∧
    (drain_events_queue parseDemo fsTwoLines AppState.default).2 =
      ((fsTwoLines.lines.filter fun l => !(l == "")).filterMap parseDemo) :=
  ⟨⟨rfl, rfl, rfl, by decide, rfl, rfl⟩,
   (c3_drain_applies_lines_in_order parseDemo fsTwoLines AppState.default
      rfl rfl rfl (by decide) rfl rfl).1⟩

/-- C7: draining is a clean no-op, returning no events and leaving the
state untouched, when the events file is absent, when it has zero
length, and when the atomic rename of the log file fails. -/
theorem c7_drain_noop_on_absent_empty_or_rename_failure
    (parse : String → Option EventInfo) (fs : FsView) (st : AppState) :
    (fs.fileExists = false → drain_events_queue parse fs st = (st, [])) ∧
    (fs.fileSize = 0 → drain_events_queue parse fs st = (st, [])) ∧
    (fs.renameOk = false → drain_events_queue parse fs st = (st, [])) := by
  refine ⟨?_, ?_, ?_⟩ <;> intro h <;> unfold drain_events_queue <;>
    split_ifs <;> simp_all

theorem c7_witness :
    (fsAbsent.fileExists = false ∧ fsAbsent.fileSize = 0 ∧
       fsAbsent.renameOk = false) ∧
    drain_events_queue parseDemo fsAbsent AppState.default =
      (AppState.default, []) :=
  ⟨⟨rfl, rfl, rfl⟩,
   (c7_drain_noop_on_absent_empty_or_rename_failure parseDemo fsAbsent
      AppState.default).1 rfl⟩

/-- C2: compare_and_update_hash returns Unchanged and leaves the
registry untouched when the stored hash equals the new one; returns
Changed, kills and removes the registered process, and stores the new
hash when a different hash was stored; returns NewEntry and stores the
hash, leaving the process table alone, when no hash was stored. In the
register-then-H-then-Hp scenario the two calls return NewEntry then
Changed and the registered process is killed exactly once. -/
theorem c2_compare_and_update_hash_spec (inner : RegistryInner) (k : String)
    (H Hp p : Nat) (hne : H ≠ Hp) :
    (inner.diff_hashes k = some H →
        compare_and_update_hash inner k H =
          (HashCompareResult.Unchanged, inner, [])) ∧
    (∀ h0, inner.diff_hashes k = some h0 → h0 ≠ H →
        (compare_and_update_hash inner k H).1 = HashCompareResult.Changed ∧
        (compare_and_update_hash inner k H).2.1.diff_hashes k = some H ∧
        (compare_and_update_hash inner k H).2.1.processes k = none ∧
        (∀ q, inner.processes k = some q →
            (compare_and_update_hash inner k H).2.2 = [q]) ∧
        (inner.processes k = none →
            (compare_and_update_hash inner k H).2.2 = [])) ∧
    (inner.diff_hashes k = none →
        (compare_and_update_hash inner k H).1 = HashCompareResult.NewEntry ∧
        (compare_and_update_hash inner k H).2.1.diff_hashes k = some H ∧
        (compare_and_update_hash inner k H).2.1.processes = inner.processes ∧
        (compare_and_update_hash inner k H).2.2 = []) ∧
    (inner.diff_hashes k = none →
        (compare_and_update_hash (register inner k p) k H).1 =
            HashCompareResult.NewEntry ∧
        (compare_and_update_hash
            ((compare_and_update_hash (register inner k p) k H).2.1) k Hp).1 =
            HashCompareResult.Changed ∧
        (compare_and_update_hash (register inner k p) k H).2.2 ++
          (compare_and_update_hash
            ((compare_and_update_hash (register inner k p) k H).2.1) k Hp).2.2 =
          [p]) := by
  refine ⟨?_, ?_, ?_, ?_⟩
  · intro h
    simp [compare_and_update_hash, h]
  · intro h0 hh hne0
    cases hp : inner.processes k with
    | some q =>
        refine ⟨?_, ?_, ?_, ?_, ?_⟩
        · simp [compare_and_update_hash, hh, hne0, hp]
        · simp [compare_and_update_hash, hh, hne0, hp, SMap.insert_self]
        · simp [compare_and_update_hash, hh, hne0, hp, SMap.remove_self]
        · intro q' hq'
          injection hq' with hq'
          subst hq'
          simp [compare_and_update_hash, hh, hne0, hp]
        · intro hnone
          exact Option.noConfusion hnone
    | none =>
        refine ⟨?_, ?_, ?_, ?_, ?_⟩
        · simp [compare_and_update_hash, hh, hne0, hp]
        · simp [compare_and_update_hash, hh, hne0, hp, SMap.insert_self]
        · simp [compare_and_update_hash, hh, hne0, hp]
        · intro q' hq'
          exact Option.noConfusion hq'
        · intro _
          simp [compare_and_update_hash, hh, hne0, hp]
  · intro h
    refine ⟨?_, ?_, ?_, ?_⟩ <;>
      simp [compare_and_update_hash, h, SMap.insert_self]
  · intro h
    have hreg : (register inner k p).diff_hashes k = none := h
    have hregp : (register inner k p).processes k = some p :=
      SMap.insert_self inner.processes k p
    refine ⟨?_, ?_, ?_⟩ <;>
      simp [compare_and_update_hash, register, h, hne, SMap.insert_self,
        SMap.insert, SMap.remove]

theorem c2_witness :
    (1 : Nat) ≠ 2 ∧
    ((compare_and_update_hash (register RegistryInner.new "w" 7) "w" 1).1 =
        HashCompareResult.NewEntry ∧
      (compare_and_update_hash
          ((compare_and_update_hash (register RegistryInner.new "w" 7) "w" 1).2.1)
          "w" 2).1 = HashCompareResult.Changed ∧
      (compare_and_update_hash (register RegistryInner.new "w" 7) "w" 1).2.2 ++
        (compare_and_update_hash
          ((compare_and_update_hash (register RegistryInner.new "w" 7) "w" 1).2.1)
          "w" 2).2.2 = [7]) :=
  ⟨by decide,
   (c2_compare_and_update_hash_spec RegistryInner.new "w" 1 2 7 (by decide)).2.2.2
     rfl⟩

theorem portStep_low_inv (r : RegistryInner)
    (h1 : DEFAULT_DIFIT_PORT ≤ r.next_port) (h2 : r.next_port < 65536) :
    DEFAULT_DIFIT_PORT ≤ (portStep r).next_port ∧
    (portStep r).next_port < 65536 := by
  simp only [DEFAULT_DIFIT_PORT] at h1
  unfold portStep get_next_port
  simp only [DEFAULT_DIFIT_PORT]
  refine ⟨?_, ?_⟩ <;> (split <;> omega)

theorem portAfter_low_inv (n : Nat) :
    DEFAULT_DIFIT_PORT ≤ (portAfter n).next_port ∧
    (portAfter n).next_port < 65536 := by
  induction n with
  | zero => exact ⟨by decide, by decide⟩
  | succ n ih =>
      have hstep : portAfter (n + 1) = portStep (portAfter n) := by
        unfold portAfter
        exact Function.iterate_succ_apply' portStep n RegistryInner.new
      rw [hstep]
      exact portStep_low_inv _ ih.1 ih.2

/-- C8: get_next_port returns the current counter, advances it by one in
wrapping 16-bit arithmetic, resets it to the base 4966 whenever the
advance leaves it below the base; after returning 65535 the next call
returns 4966 again, and every value ever returned from a fresh registry
is at least 4966. -/
theorem c8_get_next_port_spec (r : RegistryInner)
    (h1 : DEFAULT_DIFIT_PORT ≤ r.next_port) (h2 : r.next_port < 65536) :
    (get_next_port r).1 = r.next_port ∧
    DEFAULT_DIFIT_PORT ≤ (get_next_port r).1 ∧
    ((r.next_port + 1) % 65536 < DEFAULT_DIFIT_PORT →
        (get_next_port r).2.next_port = DEFAULT_DIFIT_PORT) ∧
    (¬ (r.next_port + 1) % 65536 < DEFAULT_DIFIT_PORT →
        (get_next_port r).2.next_port = (r.next_port + 1) % 65536) ∧
    (r.next_port = 65535 →
        (get_next_port (get_next_port r).2).1 = DEFAULT_DIFIT_PORT) ∧
    DEFAULT_DIFIT_PORT ≤ (get_next_port r).2.next_port ∧
    (get_next_port r).2.next_port < 65536 ∧
    (∀ n : Nat, DEFAULT_DIFIT_PORT ≤ (get_next_port (portAfter n)).1) := by
  refine ⟨rfl, h1, ?_, ?_, ?_, ?_, ?_, ?_⟩
  · intro h
    simp [get_next_port, h]
  · intro h
    simp [get_next_port, h]
  · intro h
    simp [get_next_port, h, DEFAULT_DIFIT_PORT]
  · simp only [DEFAULT_DIFIT_PORT] at h1
    simp only [get_next_port, DEFAULT_DIFIT_PORT]
    split <;> omega
  · simp only [DEFAULT_DIFIT_PORT] at h1
    simp only [get_next_port, DEFAULT_DIFIT_PORT]
    split <;> omega
  · intro n
    exact (portAfter_low_inv n).1

theorem c8_witness :
    (DEFAULT_DIFIT_PORT ≤ RegistryInner.new.next_port ∧
       RegistryInner.new.next_port < 65536) ∧
    (get_next_port RegistryInner.new).1 = RegistryInner.new.next_port :=
  ⟨⟨by decide, by decide⟩,
   (c8_get_next_port_spec RegistryInner.new (by decide) (by decide)).1⟩

/-- C9: for a Branch diff, git_diff_args errors exactly when the
effective base branch (the supplied branch, or the default base when
none is supplied) starts with a dash, and otherwise returns exactly the
argument list diff, base, HEAD. -/
theorem c9_branch_args_validation (branch : Option String) :
    ((∃ msg, git_diff_args DiffType.Branch branch = Except.error msg) ↔
        startsWithChar (branch.getD DEFAULT_BASE_BRANCH) '-' = true) ∧
    (startsWithChar (branch.getD DEFAULT_BASE_BRANCH) '-' = false →
        git_diff_args DiffType.Branch branch =
          Except.ok ["diff", branch.getD DEFAULT_BASE_BRANCH, "HEAD"]) := by
  by_cases h : startsWithChar (branch.getD DEFAULT_BASE_BRANCH) '-' = true
  · refine ⟨?_, ?_⟩
    · simp [git_diff_args, h]
    · intro hfalse
      rw [h] at hfalse
      cases hfalse
  · have hb : startsWithChar (branch.getD DEFAULT_BASE_BRANCH) '-' = false := by
      cases hv : startsWithChar (branch.getD DEFAULT_BASE_BRANCH) '-'
      · rfl
      · exact absurd hv h
    refine ⟨?_, ?_⟩
    · simp [git_diff_args, hb]
    · intro _
      simp [git_diff_args, hb]

theorem c9_witness :
    startsWithChar ((some "dev").getD DEFAULT_BASE_BRANCH) '-' = false ∧
    git_diff_args DiffType.Branch (some "dev") =
      Except.ok ["diff", "dev", "HEAD"] :=
  ⟨by decide, (c9_branch_args_validation (some "dev")).2 (by decide)⟩

theorem c10_witness :
    ("other" ≠ eventKey evStart) ∧
    (process_event AppState.default evStart).sessions "other" =
      AppState.default.sessions "other" :=
  ⟨by decide, (c10_process_event_frame AppState.default evStart "other" (by decide)).1⟩

end EoCC
